import Mathlib

/-!
Shallow embedding of `default-plugins/status-bar/src/first_line.rs`: the
key-shortcut data model, the three tile renderers, the tiered line composer
`key_indicators`, the modifier analysis and the auxiliary segments, together
with theorems settling the behavioural claims about them.

Types and helpers that live in the host library or in the crate root (outside
`src/`) are modelled from the spec; each such definition carries a doc comment
starting with `Modelled from the spec:`.
-/

namespace StatusBar

/-- Modelled from the spec: a modifier is "Ctrl/Alt/Super/Shift or similar
co-pressed qualifier" (`KeyModifier` lives in the host library, outside
`src/`). -/
inductive KeyModifier where
  | Ctrl
  | Alt
  | Super
  | Shift
deriving DecidableEq

/-- Modelled from the spec: a bare key is "a physical key identity excluding
modifiers (character, Enter, Esc, arrow, function key, etc.)" (`BareKey` lives
in the host library, outside `src/`). -/
inductive BareKey where
  | Char (c : Char)
  | Enter
  | Esc
  | Backspace
  | Tab
  | Left
  | Right
  | Up
  | Down
deriving DecidableEq

/-- Modelled from the spec: "a physical key ... plus a set of modifiers".
The modifier set is kept as a duplicate-free ordered list, the iteration
order of the set structure used by the host library. -/
structure KeyWithModifier where
  bare_key : BareKey
  key_modifiers : List KeyModifier
deriving DecidableEq

/-- Modelled from the spec: "current input mode (one of a fixed
enumeration)"; the variant names are the ones the source file matches on. -/
inductive InputMode where
  | Normal
  | Locked
  | Resize
  | Pane
  | Tab
  | Scroll
  | EnterSearch
  | Search
  | RenameTab
  | RenamePane
  | Session
  | Move
  | Prompt
  | Tmux
deriving DecidableEq

/-- Modelled from the spec: actions bound to a key. The source file only
inspects `SwitchToMode` and `Quit`; every other action variant is abstracted
as `Other`. -/
inductive Action where
  | SwitchToMode (m : InputMode)
  | Quit
  | Other (n : Nat)
deriving DecidableEq

/-- Modelled from the spec: the display name of a modifier, as used when the
host library formats a key binding. -/
def KeyModifier.show : KeyModifier → String
  | KeyModifier.Ctrl => "Ctrl"
  | KeyModifier.Alt => "Alt"
  | KeyModifier.Super => "Super"
  | KeyModifier.Shift => "Shift"

/-- Modelled from the spec: the canonical glyph of a bare key ("arrow keys
render as arrow glyphs, Enter as ENTER, etc."). -/
def BareKey.display : BareKey → String
  | BareKey.Char c => String.singleton c
  | BareKey.Enter => "ENTER"
  | BareKey.Esc => "ESC"
  | BareKey.Backspace => "BACKSPACE"
  | BareKey.Tab => "TAB"
  | BareKey.Left => "←"
  | BareKey.Right => "→"
  | BareKey.Up => "↑"
  | BareKey.Down => "↓"

/-- Rust `Vec::join`: concatenate a list of strings
with a separator between consecutive elements. -/
def join_with (sep : String) : List String → String
  | [] => ""
  | x :: xs => xs.foldl (fun acc y => acc ++ sep ++ y) x

/-- Modelled from the spec: stripping a given modifier subset produces "a new
binding with those modifiers removed" (`strip_common_modifiers` lives in the
host library, outside `src/`). -/
def KeyWithModifier.strip_common_modifiers (self : KeyWithModifier)
    (common_modifiers : List KeyModifier) : KeyWithModifier :=
  { bare_key := self.bare_key,
    key_modifiers := self.key_modifiers.filter (fun m => decide (m ∉ common_modifiers)) }

/-- Modelled from the spec: "a canonical display form (modifier
abbreviation(s) + bare-key glyph)"; modifiers are joined by single spaces
before the bare key glyph. -/
def KeyWithModifier.display (self : KeyWithModifier) : String :=
  match self.key_modifiers with
  | [] => BareKey.display self.bare_key
  | _ =>
    join_with " " (self.key_modifiers.map KeyModifier.show) ++ " "
      ++ BareKey.display self.bare_key

/-- Modelled from the spec: an opaque style bundle (colors, emphasis); its
content never influences layout. -/
structure Style where
  code : Nat
deriving DecidableEq

/-- Painting a text fragment with a style; the pair stands for the styled
fragment whose control sequences are the style and whose visible text is the
string. -/
def Style.paint (s : Style) (text : String) : Style × String := (s, text)

/-- A styled string: the concatenation of styled fragments
(`ANSIStrings(...).to_string()` in the source). -/
abbrev StyledText := List (Style × String)

/-- The visible text of a styled string: drop every styling control sequence
and keep the printed characters. -/
def unstyled_text : StyledText → String
  | [] => ""
  | frag :: rest => frag.2 ++ unstyled_text rest

/-- Source type `LinePart`: styled text plus its visible character length. -/
structure LinePart where
  part : StyledText
  len : Nat
deriving DecidableEq

/-- Source `LinePart::default()`: empty text, zero length. -/
def LinePart.default : LinePart := { part := [], len := 0 }

/-- Appending one `LinePart` to another: text concatenation plus length
addition (`format!("{}{}", a.part, b.part)` together with `a.len += b.len`
in the source). -/
def LinePart.append (a b : LinePart) : LinePart :=
  { part := a.part ++ b.part, len := a.len + b.len }

/-- Modelled from the spec: one of the four per-`KeyMode` style bundles of
`ColoredElements` (declared in the crate root, outside `src/`), with the six
style slots the tile renderers read. -/
structure SegmentStyle where
  prefix_separator : Style
  char_left_separator : Style
  char_shortcut : Style
  char_right_separator : Style
  styled_text : Style
  suffix_separator : Style
deriving DecidableEq

/-- Modelled from the spec: the resolved style palette (declared in the crate
root, outside `src/`), restricted to the slots the embedded functions read.
`superkey_banner` is the field named for the superkey banner text in the
source. -/
structure ColoredElements where
  selected : SegmentStyle
  unselected : SegmentStyle
  unselected_alternate : SegmentStyle
  disabled : SegmentStyle
  superkey_banner : Style
  superkey_suffix_separator : Style
deriving DecidableEq

/-- Source enum `KeyAction`: the closed tag set of logical action
categories. -/
inductive KeyAction where
  | Normal
  | Lock
  | Unlock
  | Pane
  | Tab
  | Resize
  | Search
  | Quit
  | Session
  | Move
  | Tmux
deriving DecidableEq

/-- Source enum `KeyMode`: the visual emphasis tag. -/
inductive KeyMode where
  | Unselected
  | UnselectedAlternate
  | Selected
  | Disabled
deriving DecidableEq

/-- Source struct `KeyShortcut`. -/
structure KeyShortcut where
  mode : KeyMode
  action : KeyAction
  key : Option KeyWithModifier
deriving DecidableEq

/-- Source `impl From<InputMode> for KeyAction`, including the
wildcard arm that maps every unmatched input mode to `KeyAction::Normal`. -/
def key_action_from_input_mode : InputMode → KeyAction
  | InputMode.Normal => KeyAction.Normal
  | InputMode.Locked => KeyAction.Lock
  | InputMode.Pane => KeyAction.Pane
  | InputMode.Tab => KeyAction.Tab
  | InputMode.Resize => KeyAction.Resize
  | InputMode.Search => KeyAction.Search
  | InputMode.Session => KeyAction.Session
  | InputMode.Move => KeyAction.Move
  | InputMode.Tmux => KeyAction.Tmux
  | _ => KeyAction.Normal

/-- Source method `KeyShortcut::full_text`. -/
def KeyShortcut.full_text (self : KeyShortcut) : String :=
  match self.action with
  | KeyAction.Normal => "UNLOCK"
  | KeyAction.Lock => "LOCK"
  | KeyAction.Unlock => "UNLOCK"
  | KeyAction.Pane => "PANE"
  | KeyAction.Tab => "TAB"
  | KeyAction.Resize => "RESIZE"
  | KeyAction.Search => "SEARCH"
  | KeyAction.Quit => "QUIT"
  | KeyAction.Session => "SESSION"
  | KeyAction.Move => "MOVE"
  | KeyAction.Tmux => "TMUX"

/-- The per-modifier abbreviation codes used by
`KeyShortcut::with_shortened_modifiers` (the inline match of the source). -/
def modifier_code : KeyModifier → String
  | KeyModifier.Ctrl => "^C"
  | KeyModifier.Alt => "^A"
  | KeyModifier.Super => "^Su"
  | KeyModifier.Shift => "^Sh"

/-- Source method `KeyShortcut::with_shortened_modifiers`. -/
def KeyShortcut.with_shortened_modifiers (self : KeyShortcut)
    (common_modifiers : List KeyModifier) : String :=
  match self.key with
  | none => "?"
  | some k =>
    let key := k.strip_common_modifiers common_modifiers
    let shortened_modifiers := join_with "-" (key.key_modifiers.map modifier_code)
    if shortened_modifiers = "" then key.display
    else shortened_modifiers ++ " " ++ BareKey.display key.bare_key

/-- Source method `KeyShortcut::letter_shortcut`. -/
def KeyShortcut.letter_shortcut (self : KeyShortcut)
    (common_modifiers : List KeyModifier) : String :=
  match self.key with
  | none => "?"
  | some k => (k.strip_common_modifiers common_modifiers).display

/-- Source function `long_mode_shortcut`. -/
def long_mode_shortcut (key : KeyShortcut) (palette : ColoredElements)
    (separator : String) (common_modifiers : List KeyModifier)
    (first_tile : Bool) : LinePart :=
  let key_hint := key.full_text
  let has_common_modifiers := !common_modifiers.isEmpty
  let key_binding : Option String :=
    match key.mode, key.key with
    | KeyMode.Disabled, none => some ""
    | _, none => none
    | _, some _ => some (key.letter_shortcut common_modifiers)
  match key_binding with
  | none => LinePart.default
  | some key_binding =>
    let colors :=
      match key.mode with
      | KeyMode.Unselected => palette.unselected
      | KeyMode.UnselectedAlternate => palette.unselected_alternate
      | KeyMode.Selected => palette.selected
      | KeyMode.Disabled => palette.disabled
    let start_separator := if !has_common_modifiers && first_tile then "" else separator
    { part :=
        [colors.prefix_separator.paint start_separator,
         colors.char_left_separator.paint " <",
         colors.char_shortcut.paint key_binding,
         colors.char_right_separator.paint "> ",
         colors.styled_text.paint (key_hint ++ " "),
         colors.suffix_separator.paint separator],
      len := start_separator.length + 2 + key_binding.length + 2 + key_hint.length
        + 1 + separator.length }

/-- Source function `shortened_modifier_shortcut`. -/
def shortened_modifier_shortcut (key : KeyShortcut) (palette : ColoredElements)
    (separator : String) (common_modifiers : List KeyModifier)
    (first_tile : Bool) : LinePart :=
  let key_hint := key.full_text
  let has_common_modifiers := !common_modifiers.isEmpty
  let key_binding : Option String :=
    match key.mode, key.key with
    | KeyMode.Disabled, none => some ""
    | _, none => none
    | _, some _ => some (key.with_shortened_modifiers common_modifiers)
  match key_binding with
  | none => LinePart.default
  | some key_binding =>
    let colors :=
      match key.mode with
      | KeyMode.Unselected => palette.unselected
      | KeyMode.UnselectedAlternate => palette.unselected_alternate
      | KeyMode.Selected => palette.selected
      | KeyMode.Disabled => palette.disabled
    let start_separator := if !has_common_modifiers && first_tile then "" else separator
    { part :=
        [colors.prefix_separator.paint start_separator,
         colors.char_left_separator.paint " <",
         colors.char_shortcut.paint key_binding,
         colors.char_right_separator.paint "> ",
         colors.styled_text.paint (key_hint ++ " "),
         colors.suffix_separator.paint separator],
      len := start_separator.length + 2 + key_binding.length + 2 + key_hint.length
        + 1 + separator.length }

/-- Source function `short_mode_shortcut`. Note that `len` counts
`separator`, not `start_separator`, exactly as the source does. -/
def short_mode_shortcut (key : KeyShortcut) (palette : ColoredElements)
    (separator : String) (common_modifiers : List KeyModifier)
    (first_tile : Bool) : LinePart :=
  let has_common_modifiers := !common_modifiers.isEmpty
  let key_binding : Option String :=
    match key.mode, key.key with
    | KeyMode.Disabled, none => some ""
    | _, none => none
    | _, some _ => some (key.letter_shortcut common_modifiers)
  match key_binding with
  | none => LinePart.default
  | some key_binding =>
    let colors :=
      match key.mode with
      | KeyMode.Unselected => palette.unselected
      | KeyMode.UnselectedAlternate => palette.unselected_alternate
      | KeyMode.Selected => palette.selected
      | KeyMode.Disabled => palette.disabled
    let start_separator := if !has_common_modifiers && first_tile then "" else separator
    { part :=
        [colors.prefix_separator.paint start_separator,
         colors.char_shortcut.paint (" " ++ key_binding ++ " "),
         colors.suffix_separator.paint separator],
      len := separator.length + 1 + key_binding.length + 1 + separator.length }

/-- Modelled from the spec: the capability flags, "notably whether
simplified/arrow-style glyphs are requested". -/
structure Capabilities where
  arrow_fonts : Bool
deriving DecidableEq

/-- Modelled from the spec: the per-render snapshot the host supplies —
current input mode and the "per-mode table mapping a key binding to an
ordered list of actions". -/
structure ModeInfo where
  mode : InputMode
  keybinds : List (InputMode × List (KeyWithModifier × List Action))
  capabilities : Capabilities
deriving DecidableEq

/-- Modelled from the spec: look up the keybinding table of one input mode
(`ModeInfo::get_keybinds_for_mode`, host library, outside `src/`); a mode
without an entry has no bindings. -/
def ModeInfo.get_keybinds_for_mode (self : ModeInfo) (mode : InputMode) :
    List (KeyWithModifier × List Action) :=
  match self.keybinds.find? (fun p => decide (p.1 = mode)) with
  | some p => p.2
  | none => []

/-- Modelled from the spec: the keybinding table of the current mode
(`ModeInfo::get_mode_keybinds`, host library, outside `src/`). -/
def ModeInfo.get_mode_keybinds (self : ModeInfo) :
    List (KeyWithModifier × List Action) :=
  self.get_keybinds_for_mode self.mode

/-- Source function `mode_switch_keys`: the keys that switch to a displayed
mode or quit, with the three "return to normal" default keys filtered out. -/
def mode_switch_keys (mode_info : ModeInfo) : List KeyWithModifier :=
  mode_info.get_mode_keybinds.filterMap (fun kv =>
    match kv.2.head? with
    | none => none
    | some vac =>
      match kv.1.bare_key with
      | BareKey.Char ' ' => none
      | BareKey.Enter => none
      | BareKey.Esc => none
      | _ =>
        match vac with
        | Action.SwitchToMode mode =>
          match mode with
          | InputMode.Normal => some kv.1
          | InputMode.Locked => some kv.1
          | InputMode.Pane => some kv.1
          | InputMode.Tab => some kv.1
          | InputMode.Resize => some kv.1
          | InputMode.Move => some kv.1
          | InputMode.Scroll => some kv.1
          | InputMode.Session => some kv.1
          | _ => none
        | Action.Quit => some kv.1
        | _ => none)

/-- The ordered intersection of two modifier lists, keeping the order of the
left operand (`BTreeSet::intersection` collected into a set/vector). -/
def listInter (a b : List KeyModifier) : List KeyModifier :=
  a.filter (fun m => decide (m ∈ b))

/-- Modelled from the spec: `get_common_modifiers` (crate root, outside
`src/`) — "given a collection of KeyBindings, compute the modifier set common
to every member"; an empty collection yields the empty set. -/
def get_common_modifiers (keyvec : List KeyWithModifier) : List KeyModifier :=
  match keyvec with
  | [] => []
  | k :: rest => rest.foldl (fun acc key => listInter acc key.key_modifiers) k.key_modifiers

/-- Source function `superkey`: compute the common modifiers of the mode
switch keys and, when non-empty, append the one-time banner to the line being
rendered. Returns the modifiers together with the updated line. -/
def superkey (palette : ColoredElements) (separator : String)
    (mode_info : ModeInfo) (line_part_to_render : LinePart) :
    List KeyModifier × LinePart :=
  let common_modifiers := get_common_modifiers (mode_switch_keys mode_info)
  if common_modifiers.isEmpty then (common_modifiers, line_part_to_render)
  else
    let prefix_text :=
      if mode_info.capabilities.arrow_fonts then
        " " ++ join_with "-" (common_modifiers.map KeyModifier.show) ++ " + "
      else
        " " ++ join_with "-" (common_modifiers.map KeyModifier.show) ++ " +"
    (common_modifiers,
      { part := line_part_to_render.part
          ++ [palette.superkey_banner.paint prefix_text,
              palette.superkey_suffix_separator.paint separator],
        len := line_part_to_render.len + prefix_text.length + separator.length })

/-- The long-tile batch of `key_indicators`: every shortcut rendered with the
long tile; the first-tile flag is recomputed each iteration from the outer
line, which the loop never modifies. -/
def long_tiles_batch (keys : List KeyShortcut) (palette : ColoredElements)
    (separator : String) (shared_modifiers : List KeyModifier)
    (line_part_to_render : LinePart) : LinePart :=
  keys.foldl (fun line_part key =>
    let line_empty := line_part_to_render.len == 0
    line_part.append (long_mode_shortcut key palette separator shared_modifiers line_empty))
    LinePart.default

/-- The shortened-modifier batch of `key_indicators`: the first-tile flag is
recomputed each iteration from the local batch accumulator. -/
def shortened_tiles_batch (keys : List KeyShortcut) (palette : ColoredElements)
    (separator : String) (shared_modifiers : List KeyModifier) : LinePart :=
  keys.foldl (fun line_part key =>
    let line_empty := line_part.len == 0
    line_part.append
      (shortened_modifier_shortcut key palette separator shared_modifiers line_empty))
    LinePart.default

/-- The short-tile batch of `key_indicators`: the first-tile flag is
recomputed each iteration from the local batch accumulator. -/
def short_tiles_batch (keys : List KeyShortcut) (palette : ColoredElements)
    (separator : String) (shared_modifiers : List KeyModifier) : LinePart :=
  keys.foldl (fun line_part key =>
    let line_empty := line_part.len == 0
    line_part.append (short_mode_shortcut key palette separator shared_modifiers line_empty))
    LinePart.default

/-- Source function `key_indicators`: append the superkey banner, then try
the long batch, the shortened-modifier batch and the short batch in order,
committing the first whose accumulated length is strictly below `max_len`,
otherwise committing nothing beyond the banner. -/
def key_indicators (max_len : Nat) (keys : List KeyShortcut)
    (palette : ColoredElements) (separator : String) (mode_info : ModeInfo)
    (line_part_to_render : LinePart) : LinePart :=
  if keys.isEmpty then line_part_to_render
  else
    let res := superkey palette separator mode_info line_part_to_render
    let long_part := long_tiles_batch keys palette separator res.1 res.2
    if res.2.len + long_part.len < max_len then res.2.append long_part
    else
      let shortened_part := shortened_tiles_batch keys palette separator res.1
      if res.2.len + shortened_part.len < max_len then res.2.append shortened_part
      else
        let short_part := short_tiles_batch keys palette separator res.1
        if res.2.len + short_part.len < max_len then res.2.append short_part
        else res.2

/-- Source function `swap_layout_status`. The keycode `LinePart` that the
source computes via `swap_layout_keycode` is taken as a parameter, since its
callees (`action_key_group`, `style_key_with_modifier`) live in the crate
root, outside `src/`; `String.toUpper` models `make_ascii_uppercase` (both
uppercase ASCII letters only), and `String.utf8ByteSize` models Rust's
byte-based `swap_layout_name.len()`. -/
def swap_layout_status (max_len : Nat) (swap_layout_name : Option String)
    (is_swap_layout_damaged : Bool) (mode_info : ModeInfo)
    (colored_elements : ColoredElements) (keycode : LinePart)
    (separator : String) : Option LinePart :=
  match swap_layout_name with
  | some name =>
    let swap_layout_name := (" " ++ name ++ " ").toUpper
    let swap_layout_name_len := swap_layout_name.utf8ByteSize + 2
    let styling :=
      if is_swap_layout_damaged then colored_elements.unselected
      else colored_elements.selected
    let swap_layout_indicator : StyledText :=
      [styling.prefix_separator.paint separator,
       styling.styled_text.paint swap_layout_name,
       styling.suffix_separator.paint separator]
    let part := keycode.part ++ swap_layout_indicator
    let full_len := keycode.len + swap_layout_name_len
    let short_len := swap_layout_name_len + 1
    if full_len ≤ max_len then some { part := part, len := full_len }
    else if short_len ≤ max_len ∧ mode_info.mode ≠ InputMode.Locked then
      some { part := swap_layout_indicator, len := short_len }
    else none
  | none => none

/-- The filter predicate of `to_char`: the three "return to normal" default
bindings that are skipped when picking a key to display. -/
def is_default_return_key (key : KeyWithModifier) : Bool :=
  match key.bare_key with
  | BareKey.Enter => true
  | BareKey.Char ' ' => true
  | BareKey.Esc => true
  | _ => false

/-- Source function `to_char`. -/
def to_char (kv : List KeyWithModifier) : Option KeyWithModifier :=
  let key := (kv.filter (fun key => ! is_default_return_key key)).head?
  match key with
  | none => kv.head?
  | some k => some k

/-- The per-mode portion of `common_modifiers_in_all_modes` (the inner loop
of the source function): `None` for an empty collection or whenever any
shortcut lacks a binding, otherwise the intersection of all modifier sets. -/
def common_modifiers_for_mode (key_shortcuts : List KeyShortcut) :
    Option (List KeyModifier) :=
  if key_shortcuts.isEmpty then none
  else
    match key_shortcuts.head?.bind (fun k => k.key.map (fun k => k.key_modifiers)) with
    | none => none
    | some start =>
      key_shortcuts.foldl
        (fun acc key => acc.bind (fun cm => key.key.map (fun k => listInter cm k.key_modifiers)))
        (some start)

/-- Source function `common_modifiers_in_all_modes`. The hash map is
represented by its iteration order as an association list; the `eprintln!`
debug statements of the source have no observable effect and are dropped. -/
def common_modifiers_in_all_modes
    (key_shortcuts : List (InputMode × List KeyShortcut)) :
    Option (List KeyModifier) :=
  match key_shortcuts.head?.bind
      (fun e => e.2.head?.bind (fun k => k.key.map (fun k => k.key_modifiers))) with
  | none => none
  | some start =>
    match key_shortcuts.foldl
        (fun acc p => acc.bind
          (fun cm => (common_modifiers_for_mode p.2).map (fun pm => listInter cm pm)))
        (some start) with
    | none => none
    | some common => if common.isEmpty then none else some common

/-- The modifier set of one shortcut; a shortcut without a binding
contributes the empty set (used only on the spec side of claims). -/
def key_modifiers_of (s : KeyShortcut) : List KeyModifier :=
  (s.key.map (fun k => k.key_modifiers)).getD []

/-- Spec-side definition for the all-modes modifier analysis claim: the
intersection of a family of modifier sets (empty family gives the empty
set). -/
def inter_all : List (List KeyModifier) → List KeyModifier
  | [] => []
  | l :: ls => ls.foldl listInter l

/-- Spec-side definition: "the intersection of (per-mode intersections)
across all modes", written directly from the claim's words. -/
def claim_overall_inter (ks : List (InputMode × List KeyShortcut)) :
    List KeyModifier :=
  inter_all (ks.map (fun p => inter_all (p.2.map key_modifiers_of)))

/-- A fixed style for concrete evaluations. -/
def sample_style : Style := { code := 0 }

/-- A fixed per-mode style bundle for concrete evaluations. -/
def sample_segment : SegmentStyle :=
  { prefix_separator := sample_style, char_left_separator := sample_style,
    char_shortcut := sample_style, char_right_separator := sample_style,
    styled_text := sample_style, suffix_separator := sample_style }

/-- A fixed palette for concrete evaluations. -/
def sample_palette : ColoredElements :=
  { selected := sample_segment, unselected := sample_segment,
    unselected_alternate := sample_segment, disabled := sample_segment,
    superkey_banner := sample_style, superkey_suffix_separator := sample_style }

/-- Ctrl-a. -/
def ctrl_a : KeyWithModifier := { bare_key := BareKey.Char 'a', key_modifiers := [KeyModifier.Ctrl] }

/-- Ctrl-b. -/
def ctrl_b : KeyWithModifier := { bare_key := BareKey.Char 'b', key_modifiers := [KeyModifier.Ctrl] }

/-- Ctrl-c. -/
def ctrl_c : KeyWithModifier := { bare_key := BareKey.Char 'c', key_modifiers := [KeyModifier.Ctrl] }

/-- The three-Ctrl-shortcut sequence of the spec's examples (PANE, RESIZE,
MOVE, all sharing the Ctrl modifier). -/
def ex_keys : List KeyShortcut :=
  [{ mode := KeyMode.UnselectedAlternate, action := KeyAction.Pane, key := some ctrl_a },
   { mode := KeyMode.UnselectedAlternate, action := KeyAction.Resize, key := some ctrl_b },
   { mode := KeyMode.Unselected, action := KeyAction.Move, key := some ctrl_c }]

/-- A mode snapshot whose normal-mode bindings are exactly the three Ctrl
shortcuts, so the superkey analysis finds the shared Ctrl modifier. -/
def ex_mode_info : ModeInfo :=
  { mode := InputMode.Normal,
    keybinds := [(InputMode.Normal,
      [(ctrl_a, [Action.SwitchToMode InputMode.Pane]),
       (ctrl_b, [Action.SwitchToMode InputMode.Resize]),
       (ctrl_c, [Action.SwitchToMode InputMode.Move])])],
    capabilities := { arrow_fonts := false } }

/-- A two-mode shortcut map whose shortcuts all carry the Ctrl modifier,
used as a concrete input for the all-modes modifier analysis. -/
def ex_map : List (InputMode × List KeyShortcut) :=
  [(InputMode.Normal,
    [{ mode := KeyMode.Selected, action := KeyAction.Pane, key := some ctrl_a }]),
   (InputMode.Pane,
    [{ mode := KeyMode.Selected, action := KeyAction.Pane, key := some ctrl_b }])]

/-- The superkey result (modifiers and banner line) of the example snapshot
on an empty line. -/
def ex_superkey : List KeyModifier × LinePart :=
  superkey sample_palette ">" ex_mode_info LinePart.default

/-! Helper lemmas about strings and styled text. -/

theorem data_empty_lit : ("" : String).data = [] := rfl

theorem data_space_langle : (" <" : String).data = [' ', '<'] := rfl

theorem data_rangle_space : ("> " : String).data = ['>', ' '] := rfl

theorem data_bracket_pair : (" <> " : String).data = [' ', '<', '>', ' '] := rfl

theorem data_space_lit : (" " : String).data = [' '] := rfl

theorem data_double_space : ("  " : String).data = [' ', ' '] := rfl

theorem foldl_append_length_le (sep : String) (xs : List String) :
    ∀ acc : String, acc.length ≤ (xs.foldl (fun a y => a ++ sep ++ y) acc).length := by
  induction xs with
  | nil => intro acc; exact Nat.le_refl _
  | cons hd tl ih =>
    intro acc
    refine Nat.le_trans ?_ (ih (acc ++ sep ++ hd))
    simp only [String.length_append]
    omega

theorem join_code_ne_empty (m : KeyModifier) (tl : List KeyModifier) :
    join_with "-" ((m :: tl).map modifier_code) ≠ "" := by
  intro h
  have h1 : (modifier_code m).length
      ≤ (join_with "-" ((m :: tl).map modifier_code)).length := by
    simpa [join_with] using
      foldl_append_length_le "-" (tl.map modifier_code) (modifier_code m)
  rw [h] at h1
  have h2 : 1 ≤ (modifier_code m).length := by cases m <;> decide
  have h0 : ("" : String).length = 0 := rfl
  omega

theorem wsm_core (key : KeyWithModifier) :
    (if join_with "-" (key.key_modifiers.map modifier_code) = "" then key.display
     else join_with "-" (key.key_modifiers.map modifier_code) ++ " "
       ++ BareKey.display key.bare_key)
    = (if key.key_modifiers = [] then BareKey.display key.bare_key
       else join_with "-" (key.key_modifiers.map modifier_code) ++ " "
         ++ BareKey.display key.bare_key) := by
  obtain ⟨bk, mods⟩ := key
  cases mods with
  | nil => simp [join_with, KeyWithModifier.display]
  | cons m tl =>
    have hne : join_with "-" (modifier_code m :: List.map modifier_code tl) ≠ "" := by
      simpa using join_code_ne_empty m tl
    simp [hne]

/-! Claim C3: the display labels and the input-mode fallback. -/

/-- C3 counterexample: a shortcut built from `InputMode::Tmux` displays
"TMUX", not "UNLOCK" — the conversion maps Tmux to `KeyAction::Tmux`, not to
`KeyAction::Normal`. -/
theorem C3_counterexample :
    key_action_from_input_mode InputMode.Tmux = KeyAction.Tmux ∧
    KeyShortcut.full_text { mode := KeyMode.Selected, action := key_action_from_input_mode InputMode.Tmux, key := none } = "TMUX" ∧
    KeyShortcut.full_text { mode := KeyMode.Selected, action := key_action_from_input_mode InputMode.Tmux, key := none } ≠ "UNLOCK" := by
  exact ⟨rfl, rfl, by decide⟩

/-- C3 (amended): each `KeyAction` has a fixed uppercase label, `Normal` and
`Unlock` both display as "UNLOCK", `InputMode::Tmux` maps to
`KeyAction::Tmux` (label "TMUX"), and every input mode not matched
explicitly (Scroll, EnterSearch, RenameTab, RenamePane, Prompt) falls back to
`KeyAction::Normal`, hence displays "UNLOCK". -/
theorem C3_labels :
    (∀ (mode : KeyMode) (key : Option KeyWithModifier),
      KeyShortcut.full_text { mode := mode, action := KeyAction.Pane, key := key } = "PANE" ∧
      KeyShortcut.full_text { mode := mode, action := KeyAction.Normal, key := key } = "UNLOCK" ∧
      KeyShortcut.full_text { mode := mode, action := KeyAction.Unlock, key := key } = "UNLOCK" ∧
      KeyShortcut.full_text { mode := mode, action := KeyAction.Lock, key := key } = "LOCK" ∧
      KeyShortcut.full_text { mode := mode, action := KeyAction.Tab, key := key } = "TAB" ∧
      KeyShortcut.full_text { mode := mode, action := KeyAction.Resize, key := key } = "RESIZE" ∧
      KeyShortcut.full_text { mode := mode, action := KeyAction.Search, key := key } = "SEARCH" ∧
      KeyShortcut.full_text { mode := mode, action := KeyAction.Quit, key := key } = "QUIT" ∧
      KeyShortcut.full_text { mode := mode, action := KeyAction.Session, key := key } = "SESSION" ∧
      KeyShortcut.full_text { mode := mode, action := KeyAction.Move, key := key } = "MOVE" ∧
      KeyShortcut.full_text { mode := mode, action := KeyAction.Tmux, key := key } = "TMUX") ∧
    key_action_from_input_mode InputMode.Tmux = KeyAction.Tmux ∧
    (∀ (mode : KeyMode) (key : Option KeyWithModifier),
      KeyShortcut.full_text { mode := mode, action := key_action_from_input_mode InputMode.Tmux, key := key } = "TMUX" ∧
      KeyShortcut.full_text { mode := mode, action := key_action_from_input_mode InputMode.Scroll, key := key } = "UNLOCK" ∧
      KeyShortcut.full_text { mode := mode, action := key_action_from_input_mode InputMode.EnterSearch, key := key } = "UNLOCK" ∧
      KeyShortcut.full_text { mode := mode, action := key_action_from_input_mode InputMode.RenameTab, key := key } = "UNLOCK" ∧
      KeyShortcut.full_text { mode := mode, action := key_action_from_input_mode InputMode.RenamePane, key := key } = "UNLOCK" ∧
      KeyShortcut.full_text { mode := mode, action := key_action_from_input_mode InputMode.Prompt, key := key } = "UNLOCK") :=
  ⟨fun _ _ => ⟨rfl, rfl, rfl, rfl, rfl, rfl, rfl, rfl, rfl, rfl, rfl⟩, rfl,
   fun _ _ => ⟨rfl, rfl, rfl, rfl, rfl, rfl⟩⟩

/-! Claim C4: the Disabled/unbound tiles. -/

/-- C4 counterexample: for `mode = Disabled`, `key = None` the short tile is
not an empty zero-length result — with separator "+" it renders the four
visible characters "+  +". -/
theorem C4_counterexample :
    (short_mode_shortcut { mode := KeyMode.Disabled, action := KeyAction.Session, key := none }
        sample_palette "+" [] false).len = 4 ∧
    unstyled_text (short_mode_shortcut
        { mode := KeyMode.Disabled, action := KeyAction.Session, key := none }
        sample_palette "+" [] false).part = "+  +" := by
  exact ⟨rfl, rfl⟩

/-- C4 (amended): for every `KeyShortcut` with `mode = Disabled`,
`key = None`, and every palette, separator and common-modifier set, the long
and shortened-modifier tiles render `separator ++ " <> " ++ LABEL ++ " " ++
separator` (non-empty), while the short tile renders the space-padded empty
binding `separator ++ "  " ++ separator` of length `2·|separator| + 2`
(non-empty as well, not an empty result). -/
theorem C4_disabled_unbound_tiles :
    ∀ (action : KeyAction) (palette : ColoredElements) (separator : String)
      (common_modifiers : List KeyModifier),
      unstyled_text (long_mode_shortcut
          { mode := KeyMode.Disabled, action := action, key := none }
          palette separator common_modifiers false).part
        = separator ++ " <> "
          ++ KeyShortcut.full_text { mode := KeyMode.Disabled, action := action, key := none }
          ++ " " ++ separator ∧
      (long_mode_shortcut { mode := KeyMode.Disabled, action := action, key := none }
          palette separator common_modifiers false).len ≠ 0 ∧
      unstyled_text (shortened_modifier_shortcut
          { mode := KeyMode.Disabled, action := action, key := none }
          palette separator common_modifiers false).part
        = separator ++ " <> "
          ++ KeyShortcut.full_text { mode := KeyMode.Disabled, action := action, key := none }
          ++ " " ++ separator ∧
      (shortened_modifier_shortcut { mode := KeyMode.Disabled, action := action, key := none }
          palette separator common_modifiers false).len ≠ 0 ∧
      unstyled_text (short_mode_shortcut
          { mode := KeyMode.Disabled, action := action, key := none }
          palette separator common_modifiers false).part
        = separator ++ "  " ++ separator ∧
      (short_mode_shortcut { mode := KeyMode.Disabled, action := action, key := none }
          palette separator common_modifiers false).len = 2 * separator.length + 2 ∧
      (short_mode_shortcut { mode := KeyMode.Disabled, action := action, key := none }
          palette separator common_modifiers false).len ≠ 0 := by
  intro action palette separator common_modifiers
  refine ⟨?_, ?_, ?_, ?_, ?_, ?_, ?_⟩
  · apply String.ext
    simp [long_mode_shortcut, Style.paint, unstyled_text, String.data_append,
      data_empty_lit, data_space_langle, data_rangle_space, data_bracket_pair,
      data_space_lit]
  · simp [long_mode_shortcut]
  · apply String.ext
    simp [shortened_modifier_shortcut, Style.paint, unstyled_text, String.data_append,
      data_empty_lit, data_space_langle, data_rangle_space, data_bracket_pair,
      data_space_lit]
  · simp [shortened_modifier_shortcut]
  · apply String.ext
    simp [short_mode_shortcut, Style.paint, unstyled_text, String.data_append,
      data_empty_lit, data_double_space, data_space_lit]
  · simp [short_mode_shortcut, data_empty_lit]
    omega
  · simp [short_mode_shortcut]

/-! Claim C5: non-Disabled shortcuts without a binding render empty. -/

/-- C5: for every `KeyShortcut` with `mode ≠ Disabled` and `key = None` each
of the three tile renderers returns the default `LinePart` (empty text,
length zero). -/
theorem C5_unbound_tiles_empty :
    ∀ (mode : KeyMode) (action : KeyAction) (palette : ColoredElements)
      (separator : String) (common_modifiers : List KeyModifier) (first_tile : Bool),
      mode ≠ KeyMode.Disabled →
      long_mode_shortcut { mode := mode, action := action, key := none }
          palette separator common_modifiers first_tile = LinePart.default ∧
      shortened_modifier_shortcut { mode := mode, action := action, key := none }
          palette separator common_modifiers first_tile = LinePart.default ∧
      short_mode_shortcut { mode := mode, action := action, key := none }
          palette separator common_modifiers first_tile = LinePart.default := by
  intro mode action palette separator common_modifiers first_tile h
  cases mode with
  | Unselected => exact ⟨rfl, rfl, rfl⟩
  | UnselectedAlternate => exact ⟨rfl, rfl, rfl⟩
  | Selected => exact ⟨rfl, rfl, rfl⟩
  | Disabled => exact absurd rfl h

/-- Witness for C5 at a concrete input. -/
theorem C5_unbound_tiles_empty_witness :
    KeyMode.Selected ≠ KeyMode.Disabled ∧
    long_mode_shortcut { mode := KeyMode.Selected, action := KeyAction.Session, key := none }
        sample_palette ">" [] false = LinePart.default :=
  ⟨by decide,
   (C5_unbound_tiles_empty KeyMode.Selected KeyAction.Session sample_palette ">" [] false
     (by decide)).1⟩

/-! Claim C7: the shortened-modifier key text. -/

/-- C7: with a key binding, the shortened-modifier text strips the common
modifiers, maps each remaining modifier to its code (Ctrl "^C", Alt "^A",
Super "^Su", Shift "^Sh"), joins the codes with "-" and appends a space plus
the bare key glyph; with no remaining modifier it is the bare key's canonical
text; without a binding it is the sentinel "?". -/
theorem C7_shortened_modifier_text :
    ∀ (mode : KeyMode) (action : KeyAction) (common_modifiers : List KeyModifier)
      (k : KeyWithModifier),
      KeyShortcut.with_shortened_modifiers
          { mode := mode, action := action, key := none } common_modifiers = "?" ∧
      KeyShortcut.with_shortened_modifiers
          { mode := mode, action := action, key := some k } common_modifiers =
        (if (k.strip_common_modifiers common_modifiers).key_modifiers = [] then
          BareKey.display k.bare_key
        else
          join_with "-"
              ((k.strip_common_modifiers common_modifiers).key_modifiers.map modifier_code)
            ++ " " ++ BareKey.display k.bare_key) := by
  intro mode action common_modifiers k
  exact ⟨rfl, wsm_core (k.strip_common_modifiers common_modifiers)⟩

/-! Claim C9: the short tile miscounts the omitted leading separator. -/

/-- C9 (code bug): at first-tile position with no common modifiers, the short
tile omits the leading separator from its text but still counts it in `len`:
with key '0' and separator ">" the visible text is " 0 >" (4 characters)
while `len` is 5, so the two fields are out of sync. -/
theorem C9_short_tile_len_mismatch :
    (short_mode_shortcut
        { mode := KeyMode.Selected, action := KeyAction.Session,
          key := some { bare_key := BareKey.Char '0', key_modifiers := [] } }
        sample_palette ">" [] true).len = 5 ∧
    unstyled_text (short_mode_shortcut
        { mode := KeyMode.Selected, action := KeyAction.Session,
          key := some { bare_key := BareKey.Char '0', key_modifiers := [] } }
        sample_palette ">" [] true).part = " 0 >" ∧
    (unstyled_text (short_mode_shortcut
        { mode := KeyMode.Selected, action := KeyAction.Session,
          key := some { bare_key := BareKey.Char '0', key_modifiers := [] } }
        sample_palette ">" [] true).part).length = 4 := by
  exact ⟨rfl, rfl, rfl⟩

/-! Claim C10: `to_char`. -/

theorem filter_head_eq_find (p : KeyWithModifier → Bool) (l : List KeyWithModifier) :
    (l.filter p).head? = l.find? p := by
  induction l with
  | nil => rfl
  | cons hd tl ih =>
    cases h : p hd <;> simp [List.filter_cons, List.find?, h, ih]

/-- C10: `to_char` returns `none` exactly on the empty list; otherwise it
returns the first key whose bare key is not one of the three "return to
normal" defaults, or, when every key is such a default, the first element of
the list. -/
theorem C10_to_char :
    ∀ kv : List KeyWithModifier,
      (to_char kv = none ↔ kv = []) ∧
      to_char kv =
        (match kv.find? (fun key => ! is_default_return_key key) with
         | some k => some k
         | none => kv.head?) := by
  intro kv
  constructor
  · constructor
    · intro h
      cases kv with
      | nil => rfl
      | cons hd tl =>
        exfalso
        unfold to_char at h
        cases hf : ((hd :: tl).filter fun key => ! is_default_return_key key).head? with
        | some k => rw [hf] at h; exact Option.noConfusion h
        | none => rw [hf] at h; simp at h
    · intro h
      subst h
      rfl
  · unfold to_char
    rw [filter_head_eq_find]
    cases List.find? (fun key => ! is_default_return_key key) kv <;> rfl

/-! Claim C8: the swap-layout status segment. -/

/-- C8: with a layout name, the indicator is the keycode followed by the
uppercased space-padded name inside separators, styled "selected" when not
dirty and "unselected" when dirty; the full form is returned when
`full_len ≤ max_len`, otherwise the short form (without the keycode) when
`short_len ≤ max_len` and the mode is not Locked, otherwise nothing; without
a name, nothing. -/
theorem C8_swap_layout_status :
    ∀ (max_len : Nat) (name : String) (dirty : Bool) (mode_info : ModeInfo)
      (ce : ColoredElements) (keycode : LinePart) (separator : String),
      (swap_layout_status max_len (some name) dirty mode_info ce keycode separator =
        (let nm := (" " ++ name ++ " ").toUpper
         let styling := if dirty then ce.unselected else ce.selected
         let indicator : StyledText :=
           [styling.prefix_separator.paint separator,
            styling.styled_text.paint nm,
            styling.suffix_separator.paint separator]
         if keycode.len + (nm.utf8ByteSize + 2) ≤ max_len then
           some { part := keycode.part ++ indicator, len := keycode.len + (nm.utf8ByteSize + 2) }
         else if nm.utf8ByteSize + 2 + 1 ≤ max_len ∧ mode_info.mode ≠ InputMode.Locked then
           some { part := indicator, len := nm.utf8ByteSize + 2 + 1 }
         else none)) ∧
      swap_layout_status max_len none dirty mode_info ce keycode separator = none := by
  intro max_len name dirty mode_info ce keycode separator
  exact ⟨rfl, rfl⟩

/-! Claim C1: the tiered composer. -/

/-- C1 counterexample: at the three-Ctrl-shortcut sequence with separator ">"
and `max_len = 50`, the composer does not commit short tiles (the long batch
already fits: 8 + 38 = 46 < 50). -/
theorem C1_counterexample :
    key_indicators 50 ex_keys sample_palette ">" ex_mode_info LinePart.default ≠
      LinePart.append ex_superkey.2
        (short_tiles_batch ex_keys sample_palette ">" ex_superkey.1) := by
  decide

/-- C1 (amended): the composer builds the whole batch with long tiles,
commits it iff the accumulated length (banner plus batch) is strictly below
`max_len`, otherwise retries the whole batch with shortened-modifier tiles,
then short tiles, under the same strict check, and commits nothing else —
the committed tiles are always all of one tier. At the three-Ctrl-shortcut
sequence with `max_len = 50` it commits the long tiles (length 46, which
fits), and at `max_len = 30` it falls back to the short tiles
(" Ctrl +>> a >> b >> c >", length 23). -/
theorem C1_key_indicators_tiers :
    (∀ (max_len : Nat) (keys : List KeyShortcut) (palette : ColoredElements)
       (separator : String) (mode_info : ModeInfo) (line : LinePart),
      key_indicators max_len keys palette separator mode_info line =
        if keys.isEmpty then line
        else
          let res := superkey palette separator mode_info line
          let long_part := long_tiles_batch keys palette separator res.1 res.2
          if res.2.len + long_part.len < max_len then res.2.append long_part
          else
            let shortened_part := shortened_tiles_batch keys palette separator res.1
            if res.2.len + shortened_part.len < max_len then res.2.append shortened_part
            else
              let short_part := short_tiles_batch keys palette separator res.1
              if res.2.len + short_part.len < max_len then res.2.append short_part
              else res.2) ∧
    key_indicators 50 ex_keys sample_palette ">" ex_mode_info LinePart.default =
      LinePart.append ex_superkey.2
        (long_tiles_batch ex_keys sample_palette ">" ex_superkey.1 ex_superkey.2) ∧
    (key_indicators 50 ex_keys sample_palette ">" ex_mode_info LinePart.default).len = 46 ∧
    unstyled_text (key_indicators 50 ex_keys sample_palette ">" ex_mode_info
        LinePart.default).part = " Ctrl +>> <a> PANE >> <b> RESIZE >> <c> MOVE >" ∧
    key_indicators 30 ex_keys sample_palette ">" ex_mode_info LinePart.default =
      LinePart.append ex_superkey.2
        (short_tiles_batch ex_keys sample_palette ">" ex_superkey.1) ∧
    (key_indicators 30 ex_keys sample_palette ">" ex_mode_info LinePart.default).len = 23 ∧
    unstyled_text (key_indicators 30 ex_keys sample_palette ">" ex_mode_info
        LinePart.default).part = " Ctrl +>> a >> b >> c >" := by
  refine ⟨fun _ _ _ _ _ _ => rfl, by decide, by decide, by decide, by decide, by decide,
    by decide⟩

/-! Claim C2: the no-tier-fits case. -/

/-- C2 counterexample: with the three-Ctrl-shortcut sequence and
`max_len = 1` no tier fits, yet the line being rendered is changed — the
superkey banner (8 visible characters) has already been committed. -/
theorem C2_counterexample :
    ex_keys ≠ [] ∧
    ¬ (ex_superkey.2.len
        + (long_tiles_batch ex_keys sample_palette ">" ex_superkey.1 ex_superkey.2).len < 1) ∧
    ¬ (ex_superkey.2.len
        + (shortened_tiles_batch ex_keys sample_palette ">" ex_superkey.1).len < 1) ∧
    ¬ (ex_superkey.2.len
        + (short_tiles_batch ex_keys sample_palette ">" ex_superkey.1).len < 1) ∧
    key_indicators 1 ex_keys sample_palette ">" ex_mode_info LinePart.default ≠
      LinePart.default := by
  decide

/-- C2 (amended): when no tier fits, `key_indicators` commits nothing beyond
the superkey banner — the result is exactly the line after `superkey`, which
equals the original line whenever there is no common modifier (the banner is
appended before any fit check, so with a common modifier it remains even when
every tier fails). -/
theorem C2_no_fit_only_banner :
    ∀ (max_len : Nat) (keys : List KeyShortcut) (palette : ColoredElements)
      (separator : String) (mode_info : ModeInfo) (line : LinePart),
      keys ≠ [] →
      ¬ ((superkey palette separator mode_info line).2.len
          + (long_tiles_batch keys palette separator
              (superkey palette separator mode_info line).1
              (superkey palette separator mode_info line).2).len < max_len) →
      ¬ ((superkey palette separator mode_info line).2.len
          + (shortened_tiles_batch keys palette separator
              (superkey palette separator mode_info line).1).len < max_len) →
      ¬ ((superkey palette separator mode_info line).2.len
          + (short_tiles_batch keys palette separator
              (superkey palette separator mode_info line).1).len < max_len) →
      key_indicators max_len keys palette separator mode_info line
          = (superkey palette separator mode_info line).2 ∧
      (get_common_modifiers (mode_switch_keys mode_info) = [] →
        key_indicators max_len keys palette separator mode_info line = line) := by
  intro max_len keys palette separator mode_info line hne h1 h2 h3
  have hkeys : keys.isEmpty = false := by
    cases keys with
    | nil => exact absurd rfl hne
    | cons a l => rfl
  have hmain : key_indicators max_len keys palette separator mode_info line
      = (superkey palette separator mode_info line).2 := by
    simp only [key_indicators, hkeys, Bool.false_eq_true, if_false]
    rw [if_neg h1, if_neg h2, if_neg h3]
  refine ⟨hmain, fun hmods => hmain.trans ?_⟩
  simp [superkey, hmods]

/-- Witness for C2 (amended) at a concrete input where no tier fits. -/
theorem C2_no_fit_only_banner_witness :
    key_indicators 1 ex_keys sample_palette ">" ex_mode_info LinePart.default
      = ex_superkey.2 :=
  (C2_no_fit_only_banner 1 ex_keys sample_palette ">" ex_mode_info LinePart.default
    (by decide) (by decide) (by decide) (by decide)).1

/-! Claim C6: the all-modes modifier analysis. -/

theorem mem_listInter (x : KeyModifier) (a b : List KeyModifier) :
    x ∈ listInter a b ↔ x ∈ a ∧ x ∈ b := by
  simp [listInter]

theorem foldl_listInter_mem (x : KeyModifier) (ls : List (List KeyModifier)) :
    ∀ cm : List KeyModifier,
      x ∈ ls.foldl listInter cm ↔ (x ∈ cm ∧ ∀ l ∈ ls, x ∈ l) := by
  induction ls with
  | nil => intro cm; simp
  | cons hd tl ih =>
    intro cm
    rw [List.foldl_cons, ih (listInter cm hd)]
    simp [mem_listInter, and_assoc]

theorem inter_all_mem (x : KeyModifier) (l : List KeyModifier)
    (ls : List (List KeyModifier)) :
    x ∈ inter_all (l :: ls) ↔ (x ∈ l ∧ ∀ l2 ∈ ls, x ∈ l2) := by
  simp only [inter_all]
  rw [foldl_listInter_mem]

theorem inner_fold_none (ss : List KeyShortcut) :
    ss.foldl
      (fun acc key => acc.bind (fun cm => key.key.map (fun k => listInter cm k.key_modifiers)))
      none = none := by
  induction ss with
  | nil => rfl
  | cons hd tl ih => simpa using ih

theorem inner_fold_eq (ss : List KeyShortcut) :
    ∀ cm : List KeyModifier,
      ss.foldl
        (fun acc key => acc.bind (fun cm => key.key.map (fun k => listInter cm k.key_modifiers)))
        (some cm)
      = if ∀ s ∈ ss, s.key.isSome
        then some (ss.foldl (fun cm s => listInter cm (key_modifiers_of s)) cm)
        else none := by
  induction ss with
  | nil => intro cm; simp
  | cons hd tl ih =>
    intro cm
    cases hk : hd.key with
    | none => simp [List.foldl_cons, hk, inner_fold_none, List.forall_mem_cons]
    | some k =>
      simp only [List.foldl_cons, hk, Option.some_bind, Option.map_some']
      rw [ih (listInter cm k.key_modifiers)]
      by_cases hall : ∀ s ∈ tl, s.key.isSome
      · simp [hall, List.forall_mem_cons, hk, key_modifiers_of]
      · simp [hall, List.forall_mem_cons, hk]

theorem cmfm_cons (s : KeyShortcut) (tl : List KeyShortcut) :
    common_modifiers_for_mode (s :: tl)
      = if ∀ u ∈ s :: tl, u.key.isSome
        then some ((s :: tl).foldl (fun cm u => listInter cm (key_modifiers_of u))
          (key_modifiers_of s))
        else none := by
  cases hk : s.key with
  | none => simp [common_modifiers_for_mode, hk, List.forall_mem_cons]
  | some k =>
    simp only [common_modifiers_for_mode, List.isEmpty_cons, Bool.false_eq_true,
      if_false, List.head?_cons, Option.some_bind, hk, Option.map_some']
    rw [inner_fold_eq]
    simp [key_modifiers_of, hk]

theorem cmfm_isSome_iff (ss : List KeyShortcut) :
    (common_modifiers_for_mode ss).isSome ↔ (ss ≠ [] ∧ ∀ s ∈ ss, s.key.isSome) := by
  cases ss with
  | nil => simp [common_modifiers_for_mode]
  | cons s tl =>
    rw [cmfm_cons]
    by_cases hall : ∀ u ∈ s :: tl, u.key.isSome
    · simp [hall]
    · simp [hall]

theorem mode_fold_mem (x : KeyModifier) (ss : List KeyShortcut) (cm : List KeyModifier) :
    x ∈ ss.foldl (fun cm s => listInter cm (key_modifiers_of s)) cm
      ↔ (x ∈ cm ∧ ∀ s ∈ ss, x ∈ key_modifiers_of s) := by
  rw [← List.foldl_map, foldl_listInter_mem]
  simp

theorem cmfm_mem_of_ok (ss : List KeyShortcut) (hne : ss ≠ [])
    (hall : ∀ s ∈ ss, s.key.isSome) (x : KeyModifier) :
    x ∈ (common_modifiers_for_mode ss).getD []
      ↔ x ∈ inter_all (ss.map key_modifiers_of) := by
  cases ss with
  | nil => exact absurd rfl hne
  | cons s tl =>
    rw [cmfm_cons, if_pos hall]
    simp only [Option.getD_some]
    rw [mode_fold_mem, List.map_cons, inter_all_mem]
    simp only [List.forall_mem_cons, List.mem_map, forall_exists_index, and_imp]
    constructor
    · rintro ⟨h0, -, htl⟩
      exact ⟨h0, fun l u hu hl => hl ▸ htl u hu⟩
    · rintro ⟨h0, htl⟩
      exact ⟨h0, h0, fun u hu => htl (key_modifiers_of u) u hu rfl⟩

theorem outer_fold_none (ks : List (InputMode × List KeyShortcut)) :
    ks.foldl
      (fun acc p => acc.bind
        (fun cm => (common_modifiers_for_mode p.2).map (fun pm => listInter cm pm)))
      none = none := by
  induction ks with
  | nil => rfl
  | cons hd tl ih => simpa using ih

theorem outer_fold_eq (ks : List (InputMode × List KeyShortcut)) :
    ∀ cm : List KeyModifier,
      ks.foldl
        (fun acc p => acc.bind
          (fun cm => (common_modifiers_for_mode p.2).map (fun pm => listInter cm pm)))
        (some cm)
      = if ∀ p ∈ ks, (common_modifiers_for_mode p.2).isSome
        then some (ks.foldl
          (fun cm p => listInter cm ((common_modifiers_for_mode p.2).getD [])) cm)
        else none := by
  induction ks with
  | nil => intro cm; simp
  | cons hd tl ih =>
    intro cm
    cases hk : common_modifiers_for_mode hd.2 with
    | none => simp [List.foldl_cons, hk, outer_fold_none, List.forall_mem_cons]
    | some pm =>
      simp only [List.foldl_cons, hk, Option.some_bind, Option.map_some']
      rw [ih (listInter cm pm)]
      have hcons : (∀ p ∈ hd :: tl, (common_modifiers_for_mode p.2).isSome)
          ↔ (∀ p ∈ tl, (common_modifiers_for_mode p.2).isSome) := by
        constructor
        · intro h p hp
          exact h p (List.mem_cons_of_mem _ hp)
        · intro h p hp
          rcases List.mem_cons.mp hp with h1 | h1
          · subst h1
            rw [hk]
            rfl
          · exact h p h1
      by_cases hall : ∀ p ∈ tl, (common_modifiers_for_mode p.2).isSome
      · rw [if_pos hall, if_pos (hcons.mpr hall)]
        simp [hk]
      · rw [if_neg hall, if_neg (fun h => hall (hcons.mp h))]

theorem outer_fold_mem (x : KeyModifier) (ks : List (InputMode × List KeyShortcut))
    (cm : List KeyModifier) :
    x ∈ ks.foldl (fun cm p => listInter cm ((common_modifiers_for_mode p.2).getD [])) cm
      ↔ (x ∈ cm ∧ ∀ p ∈ ks, x ∈ (common_modifiers_for_mode p.2).getD []) := by
  rw [← List.foldl_map, foldl_listInter_mem]
  constructor
  · rintro ⟨h1, h2⟩
    exact ⟨h1, fun p hp => h2 _ (List.mem_map_of_mem _ hp)⟩
  · rintro ⟨h1, h2⟩
    refine ⟨h1, fun l hl => ?_⟩
    obtain ⟨p, hp, rfl⟩ := List.mem_map.mp hl
    exact h2 p hp

theorem cmiam_none_of_bad (ks : List (InputMode × List KeyShortcut))
    (hbad : ¬(ks ≠ [] ∧ ∀ p ∈ ks, p.2 ≠ [] ∧ ∀ s ∈ p.2, s.key.isSome)) :
    common_modifiers_in_all_modes ks = none := by
  cases ks with
  | nil => rfl
  | cons p0 rest =>
    cases hss : p0.2 with
    | nil => simp [common_modifiers_in_all_modes, hss]
    | cons s0 tl0 =>
      cases hk : s0.key with
      | none => simp [common_modifiers_in_all_modes, hss, hk]
      | some k0 =>
        have hfail : ¬ ∀ p ∈ p0 :: rest, (common_modifiers_for_mode p.2).isSome := by
          intro hall
          apply hbad
          refine ⟨List.cons_ne_nil _ _, fun p hp => ?_⟩
          exact (cmfm_isSome_iff p.2).mp (hall p hp)
        simp only [common_modifiers_in_all_modes, List.head?_cons, Option.some_bind,
          hss, Option.map_some', hk]
        rw [outer_fold_eq, if_neg hfail]

theorem cmiam_good (ks : List (InputMode × List KeyShortcut))
    (hgood : ks ≠ [] ∧ ∀ p ∈ ks, p.2 ≠ [] ∧ ∀ s ∈ p.2, s.key.isSome) :
    ∃ v, (∀ x, x ∈ v ↔ x ∈ claim_overall_inter ks) ∧
      common_modifiers_in_all_modes ks = if v.isEmpty then none else some v := by
  obtain ⟨hne, hall⟩ := hgood
  cases ks with
  | nil => exact absurd rfl hne
  | cons p0 rest =>
    obtain ⟨hne0, hall0⟩ := hall p0 (List.mem_cons_self p0 rest)
    cases hss : p0.2 with
    | nil => exact absurd hss hne0
    | cons s0 tl0 =>
      have hs0mem : s0 ∈ p0.2 := by rw [hss]; exact List.mem_cons_self _ _
      have hk0 : s0.key.isSome := hall0 s0 hs0mem
      obtain ⟨k0, hk⟩ := Option.isSome_iff_exists.mp hk0
      have hcond : ∀ p ∈ p0 :: rest, (common_modifiers_for_mode p.2).isSome := by
        intro p hp
        exact (cmfm_isSome_iff p.2).mpr (hall p hp)
      refine ⟨(p0 :: rest).foldl
        (fun cm p => listInter cm ((common_modifiers_for_mode p.2).getD []))
        k0.key_modifiers, ?_, ?_⟩
      · intro x
        rw [outer_fold_mem]
        have hmem : ∀ p ∈ p0 :: rest,
            (x ∈ (common_modifiers_for_mode p.2).getD []
              ↔ x ∈ inter_all (p.2.map key_modifiers_of)) := by
          intro p hp
          obtain ⟨hpne, hpall⟩ := hall p hp
          exact cmfm_mem_of_ok p.2 hpne hpall x
        simp only [claim_overall_inter, List.map_cons]
        rw [inter_all_mem]
        constructor
        · rintro ⟨hx0, hxall⟩
          constructor
          · exact (hmem p0 (List.mem_cons_self _ _)).mp (hxall p0 (List.mem_cons_self _ _))
          · intro l hl
            rw [List.mem_map] at hl
            obtain ⟨p, hp, rfl⟩ := hl
            exact (hmem p (List.mem_cons_of_mem _ hp)).mp (hxall p (List.mem_cons_of_mem _ hp))
        · rintro ⟨hx0, hxrest⟩
          have hxk0 : x ∈ k0.key_modifiers := by
            rw [hss, List.map_cons, inter_all_mem] at hx0
            have h1 := hx0.1
            simpa [key_modifiers_of, hk] using h1
          refine ⟨hxk0, fun p hp => ?_⟩
          rcases List.mem_cons.mp hp with h | h
          · subst h
            exact (hmem _ (List.mem_cons_self _ _)).mpr hx0
          · exact (hmem p (List.mem_cons_of_mem _ h)).mpr
              (hxrest _ (List.mem_map_of_mem _ h))
      · simp only [common_modifiers_in_all_modes, List.head?_cons, Option.some_bind,
          hss, Option.map_some', hk]
        rw [outer_fold_eq, if_pos hcond]

/-- C6: `common_modifiers_in_all_modes` returns a non-empty modifier set —
whose members are exactly the intersection of the per-mode intersections —
iff the map is non-empty, every mode's shortcut collection is non-empty,
every shortcut everywhere has a key binding, and that overall intersection is
non-empty; in every other situation it returns `none`. -/
theorem C6_common_modifiers_all_modes :
    ∀ ks : List (InputMode × List KeyShortcut),
      ((∃ m, common_modifiers_in_all_modes ks = some m ∧ m ≠ [] ∧
          ∀ x, (x ∈ m ↔ x ∈ claim_overall_inter ks)) ↔
        (ks ≠ [] ∧ (∀ p ∈ ks, p.2 ≠ [] ∧ ∀ s ∈ p.2, s.key ≠ none) ∧
          claim_overall_inter ks ≠ [])) ∧
      (common_modifiers_in_all_modes ks = none ↔
        ¬(ks ≠ [] ∧ (∀ p ∈ ks, p.2 ≠ [] ∧ ∀ s ∈ p.2, s.key ≠ none) ∧
          claim_overall_inter ks ≠ [])) := by
  intro ks
  by_cases hgood : ks ≠ [] ∧ ∀ p ∈ ks, p.2 ≠ [] ∧ ∀ s ∈ p.2, s.key.isSome
  · obtain ⟨v, hv, heq⟩ := cmiam_good ks hgood
    have hgood' : ks ≠ [] ∧ (∀ p ∈ ks, p.2 ≠ [] ∧ ∀ s ∈ p.2, s.key ≠ none) := by
      obtain ⟨h1, h2⟩ := hgood
      exact ⟨h1, fun p hp => ⟨(h2 p hp).1,
        fun s hs => Option.isSome_iff_ne_none.mp ((h2 p hp).2 s hs)⟩⟩
    by_cases hv0 : v = []
    · have hoverall : claim_overall_inter ks = [] := by
        rw [List.eq_nil_iff_forall_not_mem]
        intro x hx
        have hxv := (hv x).mpr hx
        rw [hv0] at hxv
        exact List.not_mem_nil x hxv
      have hres : common_modifiers_in_all_modes ks = none := by
        rw [heq, hv0]
        rfl
      constructor
      · constructor
        · rintro ⟨m, hm, -, -⟩
          rw [hres] at hm
          exact Option.noConfusion hm
        · rintro ⟨-, -, hone⟩
          exact absurd hoverall hone
      · constructor
        · rintro - ⟨-, -, hone⟩
          exact absurd hoverall hone
        · intro _
          exact hres
    · have hvempty : v.isEmpty = false := by
        cases v with
        | nil => exact absurd rfl hv0
        | cons a l => rfl
      have hres : common_modifiers_in_all_modes ks = some v := by
        rw [heq, hvempty]
        rfl
      have hoverall : claim_overall_inter ks ≠ [] := by
        intro h0
        apply hv0
        rw [List.eq_nil_iff_forall_not_mem]
        intro x hx
        have hxo := (hv x).mp hx
        rw [h0] at hxo
        exact List.not_mem_nil x hxo
      constructor
      · constructor
        · intro _
          exact ⟨hgood'.1, hgood'.2, hoverall⟩
        · intro _
          exact ⟨v, hres, hv0, hv⟩
      · constructor
        · intro hnone
          rw [hres] at hnone
          exact Option.noConfusion hnone
        · intro hbad
          exact absurd ⟨hgood'.1, hgood'.2, hoverall⟩ hbad
  · have hnone := cmiam_none_of_bad ks hgood
    have hbad' : ¬(ks ≠ [] ∧ (∀ p ∈ ks, p.2 ≠ [] ∧ ∀ s ∈ p.2, s.key ≠ none) ∧
        claim_overall_inter ks ≠ []) := by
      rintro ⟨h1, h2, -⟩
      apply hgood
      exact ⟨h1, fun p hp => ⟨(h2 p hp).1,
        fun s hs => Option.isSome_iff_ne_none.mpr ((h2 p hp).2 s hs)⟩⟩
    constructor
    · constructor
      · rintro ⟨m, hm, -, -⟩
        rw [hnone] at hm
        exact Option.noConfusion hm
      · intro h
        exact absurd h hbad'
    · exact ⟨fun _ => hbad', fun _ => hnone⟩

/-- Witness for C6 at a concrete two-mode map sharing the Ctrl modifier. -/
theorem C6_common_modifiers_all_modes_witness :
    ∃ m, common_modifiers_in_all_modes ex_map = some m ∧ m ≠ [] ∧
      ∀ x, (x ∈ m ↔ x ∈ claim_overall_inter ex_map) :=
  (C6_common_modifiers_all_modes ex_map).1.mpr
    ⟨by decide, by decide, by decide⟩

end StatusBar
